import Mathlib

/-!
Shallow embedding of the warehouse multi-agent simulation core
(`Types_Agents/Multi-Agent.py`): the data model (messages, agents,
coordinator, system bus) and the operations the specification talks about
(message routing, queue draining, pick/transport/order/resource handling,
the resource-contention pass, and agent registration).

Modelling conventions:
- Python dicts with heterogeneous payloads (`message.content`, orders,
  requests) become the `Content` record whose fields are all `Option`s;
  `dict.get(key, default)` becomes `Option.getD`.
- The agent registries (`MultiAgentSystem.agents`, the coordinator's
  `agent_registry`) are insertion-ordered and keyed by `agent_id`; shared
  object references are modelled by storing agents once in the system store
  and keeping only ids in the coordinator's registry. This is faithful as
  long as agent ids are unique (Python's dicts cannot hold two agents under
  one id either); theorems carry `Nodup` hypotheses where it matters.
- `random.randint` results are passed in as explicit parameters.
- Machine integers: battery levels and loads are `Nat`; Python's
  `max(0, b - c)` is `Nat` truncated subtraction.
- Python exceptions are modelled with `Except`, the error carrying the
  mutated state at the moment of the raise (Python objects keep mutations
  made before an exception propagates).
-/

namespace MAS

/-- `AgentState` enum from the source. -/
inductive AgentState
  | idle
  | working
  | moving
  | charging
  | waiting
deriving DecidableEq, Repr

/-- A Python dict payload (message content / request / order). Every field is
optional; `dict.get(k, d)` is `field.getD d`. -/
structure Content where
  items : Option (List String) := none
  location : Option (Int × Int) := none
  pickup_location : Option (Int × Int) := none
  delivery_location : Option (Int × Int) := none
  item_count : Option Nat := none
  resource_type : Option String := none
  agent_id : Option String := none
  status : Option String := none
  order_id : Option String := none
  priority : Option String := none
deriving DecidableEq, Repr

/-- `Message.__init__`: sender, receiver (`"ALL"` for broadcast), type tag,
payload; `time.time()` is modelled as a `Nat` timestamp supplied at creation. -/
structure Message where
  sender_id : String
  receiver_id : String
  message_type : String
  content : Content
  timestamp : Nat
deriving DecidableEq, Repr

/-- The `performance_metrics` dict of `BaseAgent`. -/
structure PerfMetrics where
  tasks_completed : Nat
  messages_sent : Nat
  messages_received : Nat
  collaboration_count : Nat
deriving DecidableEq, Repr

def initMetrics : PerfMetrics :=
  { tasks_completed := 0, messages_sent := 0, messages_received := 0
    collaboration_count := 0 }

/-- The `BaseAgent` fields common to every agent. -/
structure AgentCore where
  agent_id : String
  agent_type : String
  position : Int × Int
  state : AgentState
  battery_level : Nat
  message_queue : List Message
  current_task : Option Content
  performance_metrics : PerfMetrics
deriving DecidableEq, Repr

/-- `BaseAgent.__init__`. -/
def mkCore (aid atype : String) (pos : Int × Int) : AgentCore :=
  { agent_id := aid, agent_type := atype, position := pos
    state := AgentState.idle, battery_level := 100, message_queue := []
    current_task := none, performance_metrics := initMetrics }

/-- `BaseAgent.receive_message`: append to the inbound queue, bump the
received counter. -/
def AgentCore.receive_message (c : AgentCore) (m : Message) : AgentCore :=
  { c with
      message_queue := c.message_queue ++ [m]
      performance_metrics :=
        { c.performance_metrics with
            messages_received := c.performance_metrics.messages_received + 1 } }

/-- `BaseAgent.update_battery`: `max(0, battery - consumption)`. -/
def AgentCore.update_battery (c : AgentCore) (consumption : Nat) : AgentCore :=
  { c with battery_level := c.battery_level - consumption }

/-- `PickerAgent`: carrying capacity 10, picking speed 2. -/
structure Picker where
  core : AgentCore
  carrying_capacity : Nat
  current_load : Nat
  picking_speed : Nat
deriving DecidableEq, Repr

/-- `PickerAgent.__init__`. -/
def mkPicker (aid : String) (pos : Int × Int) : Picker :=
  { core := mkCore aid "Picker" pos, carrying_capacity := 10
    current_load := 0, picking_speed := 2 }

/-- `PickerAgent.move_to_location`: state → moving, teleport, battery cost 2. -/
def Picker.move_to_location (p : Picker) (target : Int × Int) : Picker :=
  { p with core :=
      ({ p.core with state := AgentState.moving
                     position := target }).update_battery 2 }

/-- `PickerAgent.pick_items`: load grows by the item count, battery drops by
the item count, state → idle. -/
def Picker.pick_items (p : Picker) (items : List String) : Picker :=
  { p with
      current_load := p.current_load + items.length
      core := { p.core.update_battery items.length with state := AgentState.idle } }

/-- `PickerAgent.handle_pick_request`: accepted iff idle and the new load fits
the carrying capacity; then state → working, move, pick, counter increment.
Otherwise a pure no-op (a printed denial only). -/
def Picker.handle_pick_request (p : Picker) (request : Content) : Picker :=
  let items_needed := request.items.getD []
  let location := request.location.getD (0, 0)
  if p.core.state = AgentState.idle ∧
      p.current_load + items_needed.length ≤ p.carrying_capacity then
    let p := { p with core := { p.core with state := AgentState.working
                                            current_task := some request } }
    let p := p.move_to_location location
    let p := p.pick_items items_needed
    { p with core := { p.core with performance_metrics :=
        { p.core.performance_metrics with tasks_completed :=
            p.core.performance_metrics.tasks_completed + 1 } } }
  else
    p

/-- `PickerAgent.handle_collaboration_request`: accepted (returns `true`, bumps
the collaboration counter) iff idle. -/
def Picker.handle_collaboration_request (p : Picker) : Picker × Bool :=
  if p.core.state = AgentState.idle then
    ({ p with core := { p.core with performance_metrics :=
        { p.core.performance_metrics with collaboration_count :=
            p.core.performance_metrics.collaboration_count + 1 } } }, true)
  else
    (p, false)

/-- `PickerAgent.handle_message`: dispatch on the message type tag. -/
def Picker.handle_message (p : Picker) (m : Message) : Picker :=
  if m.message_type = "PICK_REQUEST" then
    p.handle_pick_request m.content
  else if m.message_type = "COLLABORATION_REQUEST" then
    (p.handle_collaboration_request).1
  else
    p

/-- A Python runtime error. -/
inductive PyError
  | attributeError (cls attr : String)
deriving DecidableEq, Repr

/-- `TransportAgent`: carrying capacity 50, transport speed 5. -/
structure Transport where
  core : AgentCore
  carrying_capacity : Nat
  current_load : Nat
  transport_speed : Nat
deriving DecidableEq, Repr

/-- `TransportAgent.__init__`. -/
def mkTransport (aid : String) (pos : Int × Int) : Transport :=
  { core := mkCore aid "Transport" pos, carrying_capacity := 50
    current_load := 0, transport_speed := 5 }

/-- `self.move_to_location(...)` evaluated on a `TransportAgent`: neither
`TransportAgent` nor `BaseAgent` defines `move_to_location` (it exists only on
`PickerAgent`, which is not in `TransportAgent`'s method-resolution order), so
the attribute lookup raises `AttributeError` at the call site, leaving the
object as it was. -/
def Transport.move_to_location (t : Transport) (_target : Int × Int) :
    Except (PyError × Transport) Transport :=
  Except.error (PyError.attributeError "TransportAgent" "move_to_location", t)

/-- `TransportAgent.execute_transport`: move to pickup, load, move to
delivery, unload, state → idle. The first phase's method lookup raises (see
`Transport.move_to_location`); the error value carries the object state at the
raise. -/
def Transport.execute_transport (t : Transport) (pickup_loc delivery_loc : Int × Int)
    (item_count : Nat) : Except (PyError × Transport) Transport :=
  match t.move_to_location pickup_loc with
  | Except.error e => Except.error e
  | Except.ok t =>
    let t := { t with current_load := t.current_load + item_count }
    match t.move_to_location delivery_loc with
    | Except.error e => Except.error e
    | Except.ok t =>
      let t := { t with current_load := t.current_load - item_count }
      Except.ok { t with core := { t.core with state := AgentState.idle } }

/-- `TransportAgent.handle_transport_request`: accepted iff idle and
`item_count` within capacity; then state → working, execute, counter
increment. A non-accepted request is silently ignored. -/
def Transport.handle_transport_request (t : Transport) (request : Content) :
    Except (PyError × Transport) Transport :=
  let pickup_location := request.pickup_location.getD (0, 0)
  let delivery_location := request.delivery_location.getD (10, 10)
  let item_count := request.item_count.getD 0
  if t.core.state = AgentState.idle ∧ item_count ≤ t.carrying_capacity then
    let t := { t with core := { t.core with state := AgentState.working
                                            current_task := some request } }
    match t.execute_transport pickup_location delivery_location item_count with
    | Except.error e => Except.error e
    | Except.ok t =>
      Except.ok { t with core := { t.core with performance_metrics :=
          { t.core.performance_metrics with tasks_completed :=
              t.core.performance_metrics.tasks_completed + 1 } } }
  else
    Except.ok t

/-- `CoordinatorAgent`: pending orders, the charging-station pool, and the
agent registry (ids; the referenced objects live in the system store). -/
structure Coordinator where
  core : AgentCore
  pending_orders : List Content
  charging_stations : Nat
  available_stations : Nat
  agent_registry : List String
deriving DecidableEq, Repr

/-- `CoordinatorAgent.__init__`: position (5,5), 3 charging stations, all
available, empty registry and pending list. -/
def mkCoordinator (aid : String) : Coordinator :=
  { core := mkCore aid "Coordinator" (5, 5), pending_orders := []
    charging_stations := 3, available_stations := 3, agent_registry := [] }

/-- `CoordinatorAgent.register_agent`: dict insert keyed by agent id
(re-registering an existing id overwrites the stored reference and keeps its
position, so the id list is unchanged). -/
def Coordinator.register_agent (co : Coordinator) (aid : String) : Coordinator :=
  if co.agent_registry.contains aid then co
  else { co with agent_registry := co.agent_registry ++ [aid] }

/-- `CoordinatorAgent.handle_resource_request`: for a charging-station request,
grant (decrement, return `True`) iff a station is available, else return
`False`; any other resource type falls through returning Python `None`. -/
def Coordinator.handle_resource_request (co : Coordinator) (request : Content) :
    Coordinator × Option Bool :=
  let resource_type := request.resource_type.getD ""
  if resource_type = "charging_station" then
    if co.available_stations > 0 then
      ({ co with available_stations := co.available_stations - 1 }, some true)
    else
      (co, some false)
  else
    (co, none)

/-- The tagged union of the three concrete agent classes. -/
inductive Agent
  | picker (p : Picker)
  | transport (t : Transport)
  | coordinator (c : Coordinator)
deriving DecidableEq, Repr

/-- The `BaseAgent` part of an agent. -/
def Agent.core : Agent → AgentCore
  | Agent.picker p => p.core
  | Agent.transport t => t.core
  | Agent.coordinator c => c.core

def Agent.agent_id (a : Agent) : String := a.core.agent_id

/-- Replace the `BaseAgent` part. -/
def Agent.withCore : Agent → AgentCore → Agent
  | Agent.picker p, k => Agent.picker { p with core := k }
  | Agent.transport t, k => Agent.transport { t with core := k }
  | Agent.coordinator c, k => Agent.coordinator { c with core := k }

/-- `isinstance(agent, CoordinatorAgent)`. -/
def Agent.isCoordinator : Agent → Bool
  | Agent.coordinator _ => true
  | _ => false

/-- `BaseAgent.receive_message`, lifted to the union. -/
def Agent.receive_message (a : Agent) (m : Message) : Agent :=
  a.withCore (a.core.receive_message m)

/-- The effect of a granted charging station in
`MultiAgentSystem.simulate_resource_competition`:
`agent.state = CHARGING; agent.battery_level = 100`. -/
def chargeAgent (a : Agent) : Agent :=
  a.withCore { a.core with state := AgentState.charging, battery_level := 100 }

/-- The system's agent dict, insertion-ordered and keyed by `agent_id`. -/
abbrev Store := List Agent

/-- Dict lookup by agent id. -/
def lookupAgent (store : Store) (aid : String) : Option Agent :=
  store.find? (fun a => a.agent_id = aid)

/-- Overwrite the entry keyed `aid` (mutation of the stored object through a
shared reference, or a dict value overwrite). -/
def setAgent (store : Store) (aid : String) (a : Agent) : Store :=
  store.map (fun b => if b.agent_id = aid then a else b)

/-- `self.agents[agent.agent_id] = agent`: overwrite in place if the key
exists, else append. -/
def dictInsert (store : Store) (a : Agent) : Store :=
  if store.any (fun b => b.agent_id = a.agent_id) then setAgent store a.agent_id a
  else store ++ [a]

/-- Observable requests issued by the coordinator and the contention pass
(each constructor records one call of the corresponding handler). -/
inductive Event
  | pickRequest (picker_id : String) (request : Content)
  | transportRequest (transport_id : String) (request : Content)
  | resourceRequest (request : Content) (granted : Bool)
deriving DecidableEq, Repr

/-- The idle pickers among the registry's agents, in registry iteration
order (`allocate_tasks`'s first list comprehension). -/
def availablePickers (store : Store) (registry : List String) : List Picker :=
  registry.filterMap (fun aid =>
    match lookupAgent store aid with
    | some (Agent.picker p) => if p.core.state = AgentState.idle then some p else none
    | _ => none)

/-- The idle transporters among the registry's agents, in registry iteration
order (`allocate_tasks`'s second list comprehension). -/
def availableTransporters (store : Store) (registry : List String) : List Transport :=
  registry.filterMap (fun aid =>
    match lookupAgent store aid with
    | some (Agent.transport t) => if t.core.state = AgentState.idle then some t else none
    | _ => none)

/-- `CoordinatorAgent.allocate_tasks`: pick the first idle picker and first
idle transporter; if both exist, issue a pick request (at a random location,
passed in as `pick_loc`) and then a transport request from the picker's
now-updated position to a random location `delivery_loc`. Mutations of the
registered agents act on the shared store; issued requests are returned as
events. The transport handler's raise propagates, carrying the store and
events at that point. -/
def allocate_tasks (co : Coordinator) (store : Store) (pick_loc delivery_loc : Int × Int)
    (order : Content) : Except (PyError × Store × List Event) (Store × List Event) :=
  let items_needed := order.items.getD []
  match availablePickers store co.agent_registry,
        availableTransporters store co.agent_registry with
  | picker :: _, transporter :: _ =>
    let pick_request : Content := { items := some items_needed, location := some pick_loc }
    let picker' := picker.handle_pick_request pick_request
    let store := setAgent store picker'.core.agent_id (Agent.picker picker')
    let ev1 := Event.pickRequest picker'.core.agent_id pick_request
    let transport_request : Content :=
      { pickup_location := some picker'.core.position
        delivery_location := some delivery_loc
        item_count := some items_needed.length }
    let ev2 := Event.transportRequest transporter.core.agent_id transport_request
    match transporter.handle_transport_request transport_request with
    | Except.error (e, t') =>
      Except.error (e, setAgent store t'.core.agent_id (Agent.transport t'), [ev1, ev2])
    | Except.ok t' =>
      Except.ok (setAgent store t'.core.agent_id (Agent.transport t'), [ev1, ev2])
  | _, _ => Except.ok (store, [])

/-- `CoordinatorAgent.handle_order_request`: append the order to the pending
list (the only coordinator-field effect), then immediately attempt
allocation. -/
def handle_order_request (co : Coordinator) (store : Store)
    (pick_loc delivery_loc : Int × Int) (order : Content) :
    Coordinator × Except (PyError × Store × List Event) (Store × List Event) :=
  let co := { co with pending_orders := co.pending_orders ++ [order] }
  (co, allocate_tasks co store pick_loc delivery_loc order)

/-- The resource request dict built in `simulate_resource_competition`. -/
def chargeRequest (aid : String) : Content :=
  { resource_type := some "charging_station", agent_id := some aid }

/-- The per-agent loop of `simulate_resource_competition`: for each
low-battery agent id, call the coordinator's `handle_resource_request`
(updating the shared coordinator object), and on a grant set the agent to
charging with a full battery. -/
def competition_loop (cid : String) : Store → List String → Store × List Event
  | store, [] => (store, [])
  | store, aid :: rest =>
    match lookupAgent store cid with
    | some (Agent.coordinator co) =>
      let request := chargeRequest aid
      let res := co.handle_resource_request request
      let store := setAgent store cid (Agent.coordinator res.1)
      let granted := res.2 = some true
      let store :=
        if granted then
          match lookupAgent store aid with
          | some a => setAgent store aid (chargeAgent a)
          | none => store
        else store
      let rec_res := competition_loop cid store rest
      (rec_res.1, Event.resourceRequest request granted :: rec_res.2)
    | _ => (store, [])

/-- The system bus plus simulation driver state (`MultiAgentSystem`). -/
structure MultiAgentSystem where
  agents : Store
  coordinator_id : Option String
  message_log : List Message
  total_messages : Nat
  orders_processed : Nat
  collaboration_instances : Nat
deriving DecidableEq, Repr

/-- `MultiAgentSystem.__init__`. -/
def mkSystem : MultiAgentSystem :=
  { agents := [], coordinator_id := none, message_log := []
    total_messages := 0, orders_processed := 0, collaboration_instances := 0 }

/-- `MultiAgentSystem.add_agent`: store the agent; a coordinator becomes
`self.coordinator`; otherwise, if a coordinator is already set, register the
new agent with it. -/
def add_agent (mas : MultiAgentSystem) (a : Agent) : MultiAgentSystem :=
  let mas := { mas with agents := dictInsert mas.agents a }
  match a with
  | Agent.coordinator _ => { mas with coordinator_id := some a.agent_id }
  | _ =>
    match mas.coordinator_id with
    | some cid =>
      match lookupAgent mas.agents cid with
      | some (Agent.coordinator co) =>
        { mas with agents :=
            setAgent mas.agents cid (Agent.coordinator (co.register_agent a.agent_id)) }
      | _ => mas
    | none => mas

/-- `MultiAgentSystem.route_message`: log the message and bump the counter;
deliver to every other agent on the broadcast marker, to the named agent if
registered, and to nobody otherwise (a printed failure only). -/
def route_message (mas : MultiAgentSystem) (m : Message) : MultiAgentSystem :=
  let mas := { mas with message_log := mas.message_log ++ [m]
                        total_messages := mas.total_messages + 1 }
  if m.receiver_id = "ALL" then
    { mas with agents := mas.agents.map (fun a =>
        if a.agent_id = m.sender_id then a else a.receive_message m) }
  else if (lookupAgent mas.agents m.receiver_id).isSome then
    { mas with agents := mas.agents.map (fun a =>
        if a.agent_id = m.receiver_id then a.receive_message m else a) }
  else
    mas

/-- The `low_battery_agents` list comprehension of
`simulate_resource_competition`: non-coordinator agents with battery below
30, in system-dict order. -/
def lowBatteryAgents (mas : MultiAgentSystem) : List Agent :=
  mas.agents.filter (fun a =>
    decide (a.core.battery_level < 30) && !a.isCoordinator)

/-- `MultiAgentSystem.simulate_resource_competition`: collect the
non-coordinator agents with battery below 30 (in system-dict order); if any
exist and a coordinator is set, run the contention loop over them. -/
def simulate_resource_competition (mas : MultiAgentSystem) :
    MultiAgentSystem × List Event :=
  let low := lowBatteryAgents mas
  match mas.coordinator_id with
  | some cid =>
    if low.isEmpty then (mas, [])
    else
      let res := competition_loop cid mas.agents (low.map Agent.agent_id)
      ({ mas with agents := res.1 }, res.2)
  | none => (mas, [])

/-- `BaseAgent.process_messages`, generic in the role-specific handler: pop
the oldest message and dispatch it until the queue is empty; the handler may
enqueue further messages on the same agent (appended at the tail, drained in
the same pass). `fuel` bounds the number of iterations (the Python loop need
not terminate for arbitrary handlers); the result is the final handler state,
the dispatch trace in order, and whatever queue remains when fuel runs out. -/
def process_messages {σ : Type} (handle : σ → Message → σ × List Message) :
    Nat → σ → List Message → σ × List Message × List Message
  | 0, s, queue => (s, [], queue)
  | _ + 1, s, [] => (s, [], [])
  | fuel + 1, s, m :: queue =>
    let r := handle s m
    let rest := process_messages handle fuel r.1 (queue ++ r.2)
    (rest.1, m :: rest.2.1, rest.2.2)

/-! ### Basic lemmas about the agent union and the store -/

lemma Agent.core_withCore (a : Agent) (k : AgentCore) : (a.withCore k).core = k := by
  cases a <;> rfl

lemma Agent.agent_id_withCore (a : Agent) (k : AgentCore) :
    (a.withCore k).agent_id = k.agent_id := by
  cases a <;> rfl

lemma Agent.agent_id_receive (a : Agent) (m : Message) :
    (a.receive_message m).agent_id = a.agent_id := by
  cases a <;> rfl

lemma agent_id_chargeAgent (a : Agent) : (chargeAgent a).agent_id = a.agent_id := by
  cases a <;> rfl

lemma lookupAgent_cons (x : Agent) (xs : Store) (bid : String) :
    lookupAgent (x :: xs) bid =
      if x.agent_id = bid then some x else lookupAgent xs bid := by
  by_cases h : x.agent_id = bid <;> simp [lookupAgent, List.find?_cons, h]

lemma setAgent_cons (x : Agent) (xs : Store) (aid : String) (a : Agent) :
    setAgent (x :: xs) aid a =
      (if x.agent_id = aid then a else x) :: setAgent xs aid a := by
  simp [setAgent]

lemma lookupAgent_setAgent (store : Store) (aid : String) (a : Agent) (bid : String)
    (hid : a.agent_id = aid) :
    lookupAgent (setAgent store aid a) bid =
      if bid = aid then (lookupAgent store aid).map (fun _ => a)
      else lookupAgent store bid := by
  induction store with
  | nil =>
    simp only [setAgent, List.map_nil]
    by_cases hb : bid = aid <;> simp [lookupAgent, hb]
  | cons c cs ih =>
    by_cases hb : bid = aid
    · subst hb
      by_cases hc : c.agent_id = bid
      · simp [setAgent_cons, lookupAgent_cons, hc, hid]
      · simp [setAgent_cons, lookupAgent_cons, hc, hid, ih]
    · by_cases hc : c.agent_id = aid
      · have hab : ¬a.agent_id = bid := fun h => hb ((hid.symm.trans h).symm)
        have hcb : ¬c.agent_id = bid := fun h => hb ((hc.symm.trans h).symm)
        have hba : ¬aid = bid := fun h => hb h.symm
        simp [setAgent_cons, lookupAgent_cons, hc, hab, hcb, ih, hb, hba]
      · by_cases hcb : c.agent_id = bid
        · simp [setAgent_cons, lookupAgent_cons, hc, hcb, hb]
        · simp [setAgent_cons, lookupAgent_cons, hc, hcb, hb, ih]

lemma map_agent_id_setAgent (store : Store) (aid : String) (a : Agent)
    (hid : a.agent_id = aid) :
    (setAgent store aid a).map Agent.agent_id = store.map Agent.agent_id := by
  induction store with
  | nil => rfl
  | cons c cs ih =>
    rw [setAgent_cons, List.map_cons, List.map_cons, ih]
    by_cases hc : c.agent_id = aid
    · rw [if_pos hc, hid, hc]
    · rw [if_neg hc]

lemma lookupAgent_eq_of_mem (store : Store) (a : Agent)
    (hmem : a ∈ store) (hnd : (store.map Agent.agent_id).Nodup) :
    lookupAgent store a.agent_id = some a := by
  induction store with
  | nil => cases hmem
  | cons c cs ih =>
    rw [List.map_cons, List.nodup_cons] at hnd
    rcases List.mem_cons.mp hmem with h | h
    · subst h
      rw [lookupAgent_cons, if_pos rfl]
    · have hne : c.agent_id ≠ a.agent_id := fun he =>
        hnd.1 (he ▸ List.mem_map_of_mem Agent.agent_id h)
      rw [lookupAgent_cons, if_neg hne]
      exact ih h hnd.2

/-- The id under which a successful lookup found its agent. -/
lemma agent_id_of_lookup {store : Store} {aid : String} {a : Agent}
    (h : lookupAgent store aid = some a) : a.agent_id = aid := by
  have := List.find?_some h
  simpa using this

/-! ### Fixtures and theorem for C1 -/

/-- The transporter of the demo roster. -/
def transportC1 : Transport := mkTransport "TRANSPORT_01" (1, 1)

/-- An accepted transport request: the transporter is idle and `item_count = 3`
is within its carrying capacity of 50. -/
def transportReqC1 : Content :=
  { pickup_location := some (2, 3), delivery_location := some (9, 9)
    item_count := some 3 }

/-- The transporter state at the moment the `AttributeError` is raised: the
request was accepted, state already set to working and the task recorded, but
the three-phase execution never ran. -/
def transportC1_at_raise : Transport :=
  { transportC1 with core := { transportC1.core with
      state := AgentState.working, current_task := some transportReqC1 } }

/-- C1: the claim that handling an accepted transport request (idle
transporter, `item_count` within capacity) runs its three-phase execution to
completion without error is violated by the code: `execute_transport` calls
`self.move_to_location`, which neither `TransportAgent` nor `BaseAgent`
defines, so Python raises `AttributeError` on the first phase. The request is
accepted (conjuncts 1–2), yet handling it returns the error, leaving the
transporter stuck in the working state with its task counter untouched. -/
theorem accepted_transport_request_raises :
    transportC1.core.state = AgentState.idle ∧
    transportReqC1.item_count.getD 0 ≤ transportC1.carrying_capacity ∧
    transportC1.handle_transport_request transportReqC1 =
      Except.error (PyError.attributeError "TransportAgent" "move_to_location",
        transportC1_at_raise) ∧
    transportC1_at_raise.core.state = AgentState.working ∧
    transportC1_at_raise.core.performance_metrics.tasks_completed = 0 :=
  ⟨rfl, by decide, rfl, rfl, rfl⟩

/-! ### Fixtures and theorem for C2 -/

/-- Coordinator with the scenario's picker and transporter registered. -/
def coordC2 : Coordinator :=
  ((mkCoordinator "COORD_01").register_agent "PICKER_01").register_agent "TRANSPORT_01"

/-- One idle picker at (2,3). -/
def pickerC2 : Picker := mkPicker "PICKER_01" (2, 3)

/-- One idle transporter at (1,1). -/
def transportC2 : Transport := mkTransport "TRANSPORT_01" (1, 1)

def storeC2 : Store :=
  [Agent.coordinator coordC2, Agent.picker pickerC2, Agent.transport transportC2]

/-- An order with 3 items. -/
def orderC2 : Content :=
  { order_id := some "ORD_001", items := some ["item1", "item2", "item3"]
    priority := some "high" }

/-- The pick request `allocate_tasks` issues (random target location (4,7)). -/
def pickReqC2 : Content :=
  { items := some ["item1", "item2", "item3"], location := some (4, 7) }

/-- The transport request `allocate_tasks` issues: pickup at the picker's
now-updated position, random delivery location (6,2), item count 3. -/
def transReqC2 : Content :=
  { pickup_location := some (4, 7), delivery_location := some (6, 2)
    item_count := some 3 }

/-- The picker after fully handling the pick request: at the pick location,
idle again, carrying 3 items, battery 95, one task completed. -/
def pickerC2_after : Picker :=
  { core :=
      { agent_id := "PICKER_01", agent_type := "Picker", position := (4, 7)
        state := AgentState.idle, battery_level := 95, message_queue := []
        current_task := some pickReqC2
        performance_metrics := { initMetrics with tasks_completed := 1 } }
    carrying_capacity := 10, current_load := 3, picking_speed := 2 }

/-- The transporter at the moment of the raise: working, task recorded,
nothing executed. -/
def transportC2_after : Transport :=
  { transportC2 with core := { transportC2.core with
      state := AgentState.working, current_task := some transReqC2 } }

/-- C2: in the one-picker/one-transporter scenario with a 3-item order,
`allocate_tasks` does issue exactly one pick request and one transport
request (the event list), and the picker does finish idle with its counter
incremented — but the transport side aborts with `AttributeError` inside
`execute_transport` (see C1), so the call raises and the transporter is left
working with its task counter still 0, contradicting the claim that both
agents end idle with counters incremented. The random target locations are
instantiated to (4,7) and (6,2). -/
theorem allocation_scenario_crashes_mid_transport :
    pickerC2.core.state = AgentState.idle ∧
    transportC2.core.state = AgentState.idle ∧
    allocate_tasks coordC2 storeC2 (4, 7) (6, 2) orderC2 =
      Except.error (PyError.attributeError "TransportAgent" "move_to_location",
        [Agent.coordinator coordC2, Agent.picker pickerC2_after,
         Agent.transport transportC2_after],
        [Event.pickRequest "PICKER_01" pickReqC2,
         Event.transportRequest "TRANSPORT_01" transReqC2]) ∧
    pickerC2_after.core.state = AgentState.idle ∧
    pickerC2_after.core.performance_metrics.tasks_completed = 1 ∧
    transportC2_after.core.state = AgentState.working ∧
    transportC2_after.core.performance_metrics.tasks_completed = 0 :=
  ⟨rfl, rfl, rfl, rfl, rfl, rfl, rfl⟩

/-! ### Theorem and witness for C8 -/

/-- C8: draining the queue is FIFO and drains to empty rather than
snapshotting. Part 1: for any handler that enqueues nothing, the dispatch
trace equals the initial queue in arrival order and the queue is left empty
(given enough fuel). Part 2: one drain iteration dispatches the oldest
message and continues, in the same pass, on the remaining queue with any
newly enqueued messages appended — so a message enqueued during the drain is
processed in the same pass. -/
theorem queue_drain_fifo :
    (∀ (σ : Type) (handle : σ → Message → σ × List Message),
      (∀ s m, (handle s m).2 = []) →
      ∀ (fuel : Nat) (s : σ) (queue : List Message), queue.length ≤ fuel →
        (process_messages handle fuel s queue).2.1 = queue ∧
        (process_messages handle fuel s queue).2.2 = []) ∧
    (∀ (σ : Type) (handle : σ → Message → σ × List Message)
        (fuel : Nat) (s : σ) (m : Message) (queue : List Message),
      (process_messages handle (fuel + 1) s (m :: queue)).2.1 =
        m :: (process_messages handle fuel (handle s m).1
                (queue ++ (handle s m).2)).2.1) := by
  constructor
  · intro σ handle hnil fuel s queue
    induction queue generalizing s fuel with
    | nil =>
      intro _
      cases fuel <;> simp [process_messages]
    | cons m rest ih =>
      intro hlen
      cases fuel with
      | zero => simp at hlen
      | succ fuel =>
        have h2 := hnil s m
        have hr := ih fuel (handle s m).1 (by simpa using hlen)
        simp only [process_messages, h2, List.append_nil]
        exact ⟨by rw [hr.1], hr.2⟩
  · intro σ handle fuel s m queue
    rfl

def msgW1 : Message :=
  { sender_id := "A", receiver_id := "B", message_type := "NOTIFY"
    content := {}, timestamp := 0 }

def msgW2 : Message := { msgW1 with timestamp := 1 }

def msgW3 : Message := { msgW1 with timestamp := 2 }

/-- A handler that enqueues nothing and counts dispatches. -/
def handleW : Nat → Message → Nat × List Message := fun s _ => (s + 1, [])

/-- Witness for C8: a concrete three-message drain dispatches M1, M2, M3 in
that order. -/
theorem queue_drain_fifo_witness :
    (∀ s m, (handleW s m).2 = []) ∧
    ([msgW1, msgW2, msgW3] : List Message).length ≤ 3 ∧
    (process_messages handleW 3 0 [msgW1, msgW2, msgW3]).2.1 =
      [msgW1, msgW2, msgW3] :=
  ⟨fun _ _ => rfl, by decide,
    (queue_drain_fifo.1 Nat handleW (fun _ _ => rfl) 3 0 _ (by decide)).1⟩

/-! ### Theorem and witness for C9 -/

/-- C9: routing a message whose receiver is the broadcast marker `"ALL"`
appends it exactly once to the bus log, bumps the bus counter, and delivers
it to every registered agent except the sender, exactly once each (each such
agent's queue grows by exactly this one message and its received counter by
one; the sender's entry is untouched). -/
theorem broadcast_routing (mas : MultiAgentSystem) (m : Message)
    (h : m.receiver_id = "ALL") :
    (route_message mas m).message_log = mas.message_log ++ [m] ∧
    (route_message mas m).total_messages = mas.total_messages + 1 ∧
    (route_message mas m).agents = mas.agents.map (fun a =>
      if a.agent_id = m.sender_id then a else a.receive_message m) ∧
    ∀ a : Agent,
      (a.receive_message m).core.message_queue = a.core.message_queue ++ [m] ∧
      (a.receive_message m).core.performance_metrics.messages_received =
        a.core.performance_metrics.messages_received + 1 := by
  refine ⟨by simp [route_message, h], by simp [route_message, h],
          by simp [route_message, h], ?_⟩
  intro a
  rw [Agent.receive_message, Agent.core_withCore]
  exact ⟨rfl, rfl⟩

def masW9 : MultiAgentSystem :=
  { mkSystem with
      agents := [Agent.coordinator (mkCoordinator "COORD_01"),
                 Agent.picker (mkPicker "PICKER_01" (2, 3)),
                 Agent.transport (mkTransport "TRANSPORT_01" (1, 1))]
      coordinator_id := some "COORD_01" }

def msgW9 : Message :=
  { sender_id := "PICKER_01", receiver_id := "ALL", message_type := "NOTIFY"
    content := { status := some "busy" }, timestamp := 5 }

/-- Witness for C9: a concrete broadcast from the picker reaches the
coordinator and the transporter but not the sender. -/
theorem broadcast_routing_witness :
    msgW9.receiver_id = "ALL" ∧
    (route_message masW9 msgW9).message_log = masW9.message_log ++ [msgW9] ∧
    (route_message masW9 msgW9).agents = masW9.agents.map (fun a =>
      if a.agent_id = msgW9.sender_id then a else a.receive_message msgW9) :=
  ⟨rfl, (broadcast_routing masW9 msgW9 rfl).1,
    (broadcast_routing masW9 msgW9 rfl).2.2.1⟩

/-! ### Reachability of coordinator states (for C6) -/

/-- The coordinator states reachable through the operations the source ever
performs on a `CoordinatorAgent`: construction, `register_agent`, the
coordinator-field effect of `handle_order_request` (appending to the pending
list; `allocate_tasks` mutates only the registered picker/transport objects),
`handle_resource_request`, and the `BaseAgent`-level mutations of the shared
`core` fields (`receive_message`, `update_battery`, counters), which never
touch the resource pool. -/
inductive CoordReachable : Coordinator → Prop
  | init (aid : String) : CoordReachable (mkCoordinator aid)
  | register (co : Coordinator) (aid : String) :
      CoordReachable co → CoordReachable (co.register_agent aid)
  | order (co : Coordinator) (store : Store) (pick_loc delivery_loc : Int × Int)
      (o : Content) :
      CoordReachable co →
      CoordReachable (handle_order_request co store pick_loc delivery_loc o).1
  | resource (co : Coordinator) (request : Content) :
      CoordReachable co → CoordReachable (co.handle_resource_request request).1
  | coreUpdate (co : Coordinator) (k : AgentCore) :
      CoordReachable co → CoordReachable { co with core := k }

/-- C6: in every reachable coordinator state the available-station count stays
between 0 and the total station count; a charging-station request is granted
exactly when a station is available, decrementing the pool by one and
returning success (`True`), and is denied when the pool is empty, returning
failure (`False`) and leaving the whole coordinator state unchanged. -/
theorem resource_pool_invariant (co : Coordinator) (h : CoordReachable co) :
    (0 ≤ co.available_stations ∧ co.available_stations ≤ co.charging_stations) ∧
    ∀ request : Content, request.resource_type.getD "" = "charging_station" →
      (0 < co.available_stations →
        co.handle_resource_request request =
          ({ co with available_stations := co.available_stations - 1 }, some true)) ∧
      (co.available_stations = 0 →
        co.handle_resource_request request = (co, some false)) := by
  constructor
  · induction h with
    | init aid => exact ⟨Nat.zero_le _, Nat.le_refl _⟩
    | register co aid _ ih =>
      rw [Coordinator.register_agent]
      split <;> exact ih
    | order co store pick_loc delivery_loc o _ ih => exact ih
    | resource co request _ ih =>
      rw [Coordinator.handle_resource_request]
      split_ifs with h1 h2
      · exact ⟨Nat.zero_le _, le_trans (Nat.sub_le _ _) ih.2⟩
      · exact ih
      · exact ih
    | coreUpdate co k _ ih => exact ih
  · intro request hreq
    constructor
    · intro hpos
      rw [Coordinator.handle_resource_request]
      rw [if_pos hreq, if_pos hpos]
    · intro hzero
      rw [Coordinator.handle_resource_request]
      rw [if_pos hreq, if_neg (by omega)]

/-- Witness for C6: the freshly constructed coordinator is reachable, its pool
satisfies the bounds, and a concrete charging-station request is granted with
the pool dropping from 3 to 2. -/
theorem resource_pool_invariant_witness :
    CoordReachable (mkCoordinator "COORD_01") ∧
    (chargeRequest "PICKER_01").resource_type.getD "" = "charging_station" ∧
    0 < (mkCoordinator "COORD_01").available_stations ∧
    (0 ≤ (mkCoordinator "COORD_01").available_stations ∧
      (mkCoordinator "COORD_01").available_stations ≤
        (mkCoordinator "COORD_01").charging_stations) ∧
    (mkCoordinator "COORD_01").handle_resource_request (chargeRequest "PICKER_01") =
      ({ mkCoordinator "COORD_01" with available_stations := 2 }, some true) := by
  have h := resource_pool_invariant (mkCoordinator "COORD_01")
    (CoordReachable.init "COORD_01")
  exact ⟨CoordReachable.init "COORD_01", rfl, by decide, h.1,
    (h.2 (chargeRequest "PICKER_01") rfl).1 (by decide)⟩

/-! ### Reachability of picker states (for C7) -/

/-- The picker states reachable through the operations the source ever
performs on a `PickerAgent`: construction, the two message handlers (also via
the `handle_message` dispatcher), and the `BaseAgent`-level mutations of the
shared `core` fields, which never touch load or capacity. `pick_items` and
`move_to_location` are invoked only from inside `handle_pick_request`, under
its guard, so they are not independent transitions. -/
inductive PickerReachable : Picker → Prop
  | init (aid : String) (pos : Int × Int) : PickerReachable (mkPicker aid pos)
  | pick (p : Picker) (request : Content) :
      PickerReachable p → PickerReachable (p.handle_pick_request request)
  | collab (p : Picker) :
      PickerReachable p → PickerReachable (p.handle_collaboration_request).1
  | msg (p : Picker) (m : Message) :
      PickerReachable p → PickerReachable (p.handle_message m)
  | coreUpdate (p : Picker) (k : AgentCore) :
      PickerReachable p → PickerReachable { p with core := k }

lemma handle_pick_request_capacity (p : Picker) (request : Content)
    (h : p.current_load ≤ p.carrying_capacity) :
    (p.handle_pick_request request).current_load ≤
      (p.handle_pick_request request).carrying_capacity := by
  rw [Picker.handle_pick_request]
  split_ifs with hacc
  · exact hacc.2
  · exact h

lemma handle_collaboration_capacity (p : Picker)
    (h : p.current_load ≤ p.carrying_capacity) :
    (p.handle_collaboration_request).1.current_load ≤
      (p.handle_collaboration_request).1.carrying_capacity := by
  rw [Picker.handle_collaboration_request]
  split <;> exact h

/-- C7: in every reachable picker state the current load never exceeds the
carrying capacity, and a pick request that arrives while the picker is not
idle or whose item count would overflow the capacity is a complete no-op:
the picker is returned exactly as it was (no state, load, position, battery
or counter change — never partially fulfilled). -/
theorem picker_capacity_invariant (p : Picker) (h : PickerReachable p) :
    p.current_load ≤ p.carrying_capacity ∧
    ∀ request : Content,
      ¬(p.core.state = AgentState.idle ∧
        p.current_load + (request.items.getD []).length ≤ p.carrying_capacity) →
      p.handle_pick_request request = p := by
  constructor
  · induction h with
    | init aid pos => exact Nat.zero_le _
    | pick p request _ ih => exact handle_pick_request_capacity p request ih
    | collab p _ ih => exact handle_collaboration_capacity p ih
    | msg p m _ ih =>
      rw [Picker.handle_message]
      split_ifs
      · exact handle_pick_request_capacity p m.content ih
      · exact handle_collaboration_capacity p ih
      · exact ih
    | coreUpdate p k _ ih => exact ih
  · intro request hrej
    rw [Picker.handle_pick_request]
    exact if_neg hrej

/-- A pick request for 11 items, more than the capacity of 10. -/
def reqBigC7 : Content :=
  { items := some ["i1", "i2", "i3", "i4", "i5", "i6", "i7", "i8", "i9", "i10", "i11"] }

/-- Witness for C7: a fresh picker is reachable, within capacity, and rejects
an 11-item request by returning unchanged. -/
theorem picker_capacity_invariant_witness :
    PickerReachable (mkPicker "PICKER_01" (2, 3)) ∧
    (mkPicker "PICKER_01" (2, 3)).current_load ≤
      (mkPicker "PICKER_01" (2, 3)).carrying_capacity ∧
    ¬((mkPicker "PICKER_01" (2, 3)).core.state = AgentState.idle ∧
      (mkPicker "PICKER_01" (2, 3)).current_load + (reqBigC7.items.getD []).length ≤
        (mkPicker "PICKER_01" (2, 3)).carrying_capacity) ∧
    (mkPicker "PICKER_01" (2, 3)).handle_pick_request reqBigC7 =
      mkPicker "PICKER_01" (2, 3) := by
  have h := picker_capacity_invariant (mkPicker "PICKER_01" (2, 3))
    (PickerReachable.init "PICKER_01" (2, 3))
  exact ⟨PickerReachable.init "PICKER_01" (2, 3), h.1, by decide,
    h.2 reqBigC7 (by decide)⟩

/-! ### The contention pass (groundwork for C3 and C4) -/

lemma handle_resource_request_grant (co : Coordinator) (aid : String)
    (h : 0 < co.available_stations) :
    co.handle_resource_request (chargeRequest aid) =
      ({ co with available_stations := co.available_stations - 1 }, some true) := by
  simp [Coordinator.handle_resource_request, chargeRequest, h]

lemma handle_resource_request_deny (co : Coordinator) (aid : String)
    (h : co.available_stations = 0) :
    co.handle_resource_request (chargeRequest aid) = (co, some false) := by
  simp [Coordinator.handle_resource_request, chargeRequest, h]

lemma competition_loop_cons_grant (cid : String) (store : Store) (aid : String)
    (rest : List String) (co : Coordinator) (a : Agent)
    (hco : lookupAgent store cid = some (Agent.coordinator co))
    (hpos : 0 < co.available_stations)
    (ha : lookupAgent (setAgent store cid (Agent.coordinator
        { co with available_stations := co.available_stations - 1 })) aid = some a) :
    competition_loop cid store (aid :: rest) =
      ((competition_loop cid
          (setAgent (setAgent store cid (Agent.coordinator
            { co with available_stations := co.available_stations - 1 }))
            aid (chargeAgent a)) rest).1,
        Event.resourceRequest (chargeRequest aid) true ::
          (competition_loop cid (setAgent (setAgent store cid (Agent.coordinator
            { co with available_stations := co.available_stations - 1 }))
            aid (chargeAgent a)) rest).2) := by
  simp only [competition_loop, hco, handle_resource_request_grant co aid hpos]
  simp [ha]

lemma competition_loop_cons_deny (cid : String) (store : Store) (aid : String)
    (rest : List String) (co : Coordinator)
    (hco : lookupAgent store cid = some (Agent.coordinator co))
    (hzero : co.available_stations = 0) :
    competition_loop cid store (aid :: rest) =
      ((competition_loop cid (setAgent store cid (Agent.coordinator co)) rest).1,
        Event.resourceRequest (chargeRequest aid) false ::
          (competition_loop cid (setAgent store cid (Agent.coordinator co)) rest).2) := by
  simp only [competition_loop, hco, handle_resource_request_deny co aid hzero]
  simp

/-- Full characterisation of the contention loop, for distinct agent ids:
it issues exactly one charging request per listed id, in order, granting the
first `available_stations` many and denying the rest; granted agents are
overwritten with their charged version, every other non-coordinator entry is
untouched. -/
lemma competition_loop_spec (cid : String) (ids : List String) :
    ∀ (store : Store) (co : Coordinator),
    lookupAgent store cid = some (Agent.coordinator co) →
    (store.map Agent.agent_id).Nodup →
    (∀ aid ∈ ids, aid ≠ cid) →
    ids.Nodup →
    (∀ aid ∈ ids, (lookupAgent store aid).isSome) →
    (competition_loop cid store ids).2 =
      (ids.take co.available_stations).map
        (fun aid => Event.resourceRequest (chargeRequest aid) true) ++
      (ids.drop co.available_stations).map
        (fun aid => Event.resourceRequest (chargeRequest aid) false) ∧
    (∀ bid, bid ∉ ids → bid ≠ cid →
      lookupAgent (competition_loop cid store ids).1 bid = lookupAgent store bid) ∧
    (∀ aid ∈ ids.take co.available_stations,
      lookupAgent (competition_loop cid store ids).1 aid =
        (lookupAgent store aid).map chargeAgent) ∧
    (∀ aid ∈ ids.drop co.available_stations,
      lookupAgent (competition_loop cid store ids).1 aid = lookupAgent store aid) := by
  induction ids with
  | nil =>
    intro store co _ _ _ _ _
    exact ⟨by simp [competition_loop], fun bid _ _ => rfl, by simp, by simp⟩
  | cons aid rest ih =>
    intro store co hco hnd hne hids hpres
    have hcid_id : (Agent.coordinator co).agent_id = cid := agent_id_of_lookup hco
    have haid_ne : aid ≠ cid := hne aid (List.mem_cons_self _ _)
    have hrest_ne : ∀ b ∈ rest, b ≠ cid := fun b hb => hne b (List.mem_cons_of_mem _ hb)
    have hids' : rest.Nodup := (List.nodup_cons.mp hids).2
    have haid_nin : aid ∉ rest := (List.nodup_cons.mp hids).1
    cases hav : co.available_stations with
    | zero =>
      have hl : ∀ bid, bid ≠ cid →
          lookupAgent (setAgent store cid (Agent.coordinator co)) bid =
            lookupAgent store bid := fun bid hbid => by
        rw [lookupAgent_setAgent _ _ _ _ hcid_id, if_neg hbid]
      have hco1 : lookupAgent (setAgent store cid (Agent.coordinator co)) cid =
          some (Agent.coordinator co) := by
        rw [lookupAgent_setAgent _ _ _ _ hcid_id, if_pos rfl, hco]
        rfl
      have hnd1 : ((setAgent store cid (Agent.coordinator co)).map Agent.agent_id).Nodup := by
        rw [map_agent_id_setAgent _ _ _ hcid_id]; exact hnd
      have hpres1 : ∀ b ∈ rest,
          (lookupAgent (setAgent store cid (Agent.coordinator co)) b).isSome := fun b hb => by
        rw [hl b (hrest_ne b hb)]
        exact hpres b (List.mem_cons_of_mem _ hb)
      have IH := ih (setAgent store cid (Agent.coordinator co)) co hco1 hnd1 hrest_ne hids' hpres1
      rw [hav] at IH
      rw [competition_loop_cons_deny cid store aid rest co hco hav]
      dsimp only
      simp only [List.take_zero, List.drop_zero, List.map_nil, List.nil_append,
        List.map_cons] at IH ⊢
      refine ⟨?_, ?_, ?_, ?_⟩
      · rw [IH.1]
      · intro bid hbid hbcid
        have hbaid : bid ∉ rest := fun hb => hbid (List.mem_cons_of_mem _ hb)
        rw [IH.2.1 bid hbaid hbcid, hl bid hbcid]
      · intro b hb
        cases hb
      · intro b hb
        rcases List.mem_cons.mp hb with h | h
        · subst h
          rw [IH.2.1 b haid_nin haid_ne, hl b haid_ne]
        · rw [IH.2.2.2 b h, hl b (hrest_ne b h)]
    | succ n =>
      have hpos : 0 < co.available_stations := by omega
      have hc'id : (Agent.coordinator
          { co with available_stations := co.available_stations - 1 }).agent_id = cid :=
        hcid_id
      have hl1 : ∀ bid, bid ≠ cid →
          lookupAgent (setAgent store cid (Agent.coordinator
            { co with available_stations := co.available_stations - 1 })) bid =
            lookupAgent store bid := fun bid hbid => by
        rw [lookupAgent_setAgent _ _ _ _ hc'id, if_neg hbid]
      obtain ⟨a, haeq⟩ : ∃ a, lookupAgent store aid = some a :=
        Option.isSome_iff_exists.mp (hpres aid (List.mem_cons_self _ _))
      have haid_id : a.agent_id = aid := agent_id_of_lookup haeq
      have ha1 : lookupAgent (setAgent store cid (Agent.coordinator
          { co with available_stations := co.available_stations - 1 })) aid = some a := by
        rw [hl1 aid haid_ne, haeq]
      have hch_id : (chargeAgent a).agent_id = aid := by
        rw [agent_id_chargeAgent, haid_id]
      have hl2 : ∀ bid, bid ≠ aid →
          lookupAgent (setAgent (setAgent store cid (Agent.coordinator
            { co with available_stations := co.available_stations - 1 }))
            aid (chargeAgent a)) bid =
            lookupAgent (setAgent store cid (Agent.coordinator
              { co with available_stations := co.available_stations - 1 })) bid :=
        fun bid hbid => by
          rw [lookupAgent_setAgent _ _ _ _ hch_id, if_neg hbid]
      have hco2 : lookupAgent (setAgent (setAgent store cid (Agent.coordinator
          { co with available_stations := co.available_stations - 1 }))
          aid (chargeAgent a)) cid =
          some (Agent.coordinator { co with available_stations := co.available_stations - 1 }) := by
        rw [hl2 cid (Ne.symm haid_ne), lookupAgent_setAgent _ _ _ _ hc'id, if_pos rfl, hco]
        rfl
      have hnd2 : ((setAgent (setAgent store cid (Agent.coordinator
          { co with available_stations := co.available_stations - 1 }))
          aid (chargeAgent a)).map Agent.agent_id).Nodup := by
        rw [map_agent_id_setAgent _ _ _ hch_id, map_agent_id_setAgent _ _ _ hc'id]
        exact hnd
      have hpres2 : ∀ b ∈ rest,
          (lookupAgent (setAgent (setAgent store cid (Agent.coordinator
            { co with available_stations := co.available_stations - 1 }))
            aid (chargeAgent a)) b).isSome := fun b hb => by
        have hbaid : b ≠ aid := fun he => haid_nin (he ▸ hb)
        rw [hl2 b hbaid, hl1 b (hrest_ne b hb)]
        exact hpres b (List.mem_cons_of_mem _ hb)
      have IH := ih (setAgent (setAgent store cid (Agent.coordinator
          { co with available_stations := co.available_stations - 1 }))
          aid (chargeAgent a))
        { co with available_stations := co.available_stations - 1 }
        hco2 hnd2 hrest_ne hids' hpres2
      have hav' : ({ co with available_stations := co.available_stations - 1 } :
          Coordinator).available_stations = n := by
        simp [hav]
      rw [hav'] at IH
      rw [competition_loop_cons_grant cid store aid rest co a hco hpos ha1]
      dsimp only
      simp only [List.take_succ_cons, List.drop_succ_cons, List.map_cons,
        List.cons_append] at IH ⊢
      refine ⟨?_, ?_, ?_, ?_⟩
      · rw [IH.1]
      · intro bid hbid hbcid
        have hbrest : bid ∉ rest := fun hb => hbid (List.mem_cons_of_mem _ hb)
        have hbaid : bid ≠ aid := fun he => hbid (he ▸ List.mem_cons_self _ _)
        rw [IH.2.1 bid hbrest hbcid, hl2 bid hbaid, hl1 bid hbcid]
      · intro b hb
        rcases List.mem_cons.mp hb with h | h
        · subst h
          rw [IH.2.1 b haid_nin haid_ne, lookupAgent_setAgent _ _ _ _ hch_id, if_pos rfl,
            ha1, haeq]
          rfl
        · have hbrest : b ∈ rest := List.take_subset _ _ h
          have hbaid : b ≠ aid := fun he => haid_nin (he ▸ hbrest)
          rw [IH.2.2.1 b h, hl2 b hbaid, hl1 b (hrest_ne b hbrest)]
      · intro b hb
        have hbrest : b ∈ rest := List.drop_subset _ _ hb
        have hbaid : b ≠ aid := fun he => haid_nin (he ▸ hbrest)
        rw [IH.2.2.2 b hb, hl2 b hbaid, hl1 b (hrest_ne b hbrest)]

lemma simulate_empty (mas : MultiAgentSystem) (cid : String)
    (hcid : mas.coordinator_id = some cid)
    (hlow : lowBatteryAgents mas = []) :
    simulate_resource_competition mas = (mas, []) := by
  simp [simulate_resource_competition, hcid, hlow]

lemma simulate_eq (mas : MultiAgentSystem) (cid : String)
    (hcid : mas.coordinator_id = some cid)
    (hlow : (lowBatteryAgents mas).isEmpty = false) :
    simulate_resource_competition mas =
      ({ mas with agents := (competition_loop cid mas.agents
          ((lowBatteryAgents mas).map Agent.agent_id)).1 },
        (competition_loop cid mas.agents ((lowBatteryAgents mas).map Agent.agent_id)).2) := by
  simp [simulate_resource_competition, hcid, hlow]

/-- The side conditions `competition_loop_spec` needs, derived for the
low-battery id list of a well-formed system. -/
lemma contention_hyps (mas : MultiAgentSystem) (cid : String) (co : Coordinator)
    (hnd : (mas.agents.map Agent.agent_id).Nodup)
    (hco : lookupAgent mas.agents cid = some (Agent.coordinator co)) :
    (∀ aid ∈ (lowBatteryAgents mas).map Agent.agent_id, aid ≠ cid) ∧
    ((lowBatteryAgents mas).map Agent.agent_id).Nodup ∧
    (∀ aid ∈ (lowBatteryAgents mas).map Agent.agent_id,
      (lookupAgent mas.agents aid).isSome) := by
  refine ⟨?_, ?_, ?_⟩
  · intro aid haid
    obtain ⟨b, hb, rfl⟩ := List.mem_map.mp haid
    simp only [lowBatteryAgents] at hb
    have hbmem : b ∈ mas.agents := (List.mem_filter.mp hb).1
    have hbpred := (List.mem_filter.mp hb).2
    have hlook := lookupAgent_eq_of_mem mas.agents b hbmem hnd
    intro he
    rw [he, hco] at hlook
    injection hlook with hlook
    rw [← hlook] at hbpred
    simp [Agent.isCoordinator] at hbpred
  · have hsub : List.Sublist ((lowBatteryAgents mas).map Agent.agent_id)
        (mas.agents.map Agent.agent_id) :=
      List.Sublist.map Agent.agent_id (List.filter_sublist _)
    exact hnd.sublist hsub
  · intro aid haid
    obtain ⟨b, hb, rfl⟩ := List.mem_map.mp haid
    simp only [lowBatteryAgents] at hb
    rw [lookupAgent_eq_of_mem mas.agents b (List.mem_filter.mp hb).1 hnd]
    rfl

/-! ### C4: counterexample, amended theorem, witness -/

def coordC4 : Coordinator := (mkCoordinator "COORD_04").register_agent "P4"

/-- A picker with battery 25: at or above the claimed threshold of 20, but
below the code's threshold of 30. -/
def pickerC4 : Picker :=
  { mkPicker "P4" (2, 3) with
      core := { (mkPicker "P4" (2, 3)).core with battery_level := 25 } }

def masC4 : MultiAgentSystem :=
  { mkSystem with
      agents := [Agent.coordinator coordC4, Agent.picker pickerC4]
      coordinator_id := some "COORD_04" }

/-- Counterexample to C4: the claim says only agents with resource level
below 20 issue a charging request, and agents at 20 or above issue none.
The picker here has battery 25 — not below 20 — yet the contention pass
issues a charging resource request for it, because the code's filter is
`battery_level < 30`. -/
theorem battery25_issues_charging_request :
    pickerC4.core.battery_level = 25 ∧
    ¬pickerC4.core.battery_level < 20 ∧
    (simulate_resource_competition masC4).2 =
      [Event.resourceRequest (chargeRequest "P4") true] :=
  ⟨rfl, by decide, rfl⟩

/-- C4 as amended: the contention pass issues exactly one charging resource
request per non-coordinator agent with battery level below **30** (not 20),
in system-registry iteration order — the first `available_stations` many
granted, the rest denied — and no request for any agent at level 30 or
above (the request list is exactly the image of the `< 30` filter). -/
theorem contention_threshold_is_thirty (mas : MultiAgentSystem) (cid : String)
    (co : Coordinator)
    (hnd : (mas.agents.map Agent.agent_id).Nodup)
    (hcid : mas.coordinator_id = some cid)
    (hco : lookupAgent mas.agents cid = some (Agent.coordinator co)) :
    lowBatteryAgents mas = mas.agents.filter
      (fun a => decide (a.core.battery_level < 30) && !a.isCoordinator) ∧
    (simulate_resource_competition mas).2 =
      (((lowBatteryAgents mas).map Agent.agent_id).take co.available_stations).map
        (fun aid => Event.resourceRequest (chargeRequest aid) true) ++
      (((lowBatteryAgents mas).map Agent.agent_id).drop co.available_stations).map
        (fun aid => Event.resourceRequest (chargeRequest aid) false) := by
  refine ⟨rfl, ?_⟩
  obtain ⟨hne, hidsnd, hpres⟩ := contention_hyps mas cid co hnd hco
  have spec := competition_loop_spec cid ((lowBatteryAgents mas).map Agent.agent_id)
    mas.agents co hco hnd hne hidsnd hpres
  by_cases hlow : lowBatteryAgents mas = []
  · rw [simulate_empty mas cid hcid hlow, hlow]
    simp
  · have hlow2 : (lowBatteryAgents mas).isEmpty = false := by
      simpa [List.isEmpty_iff] using hlow
    rw [simulate_eq mas cid hcid hlow2]
    exact spec.1

/-- Witness for C4 (amended): the concrete system `masC4` satisfies the
hypotheses and its contention pass issues exactly the `< 30` requests. -/
theorem contention_threshold_is_thirty_witness :
    (masC4.agents.map Agent.agent_id).Nodup ∧
    masC4.coordinator_id = some "COORD_04" ∧
    lookupAgent masC4.agents "COORD_04" = some (Agent.coordinator coordC4) ∧
    (simulate_resource_competition masC4).2 =
      (((lowBatteryAgents masC4).map Agent.agent_id).take coordC4.available_stations).map
        (fun aid => Event.resourceRequest (chargeRequest aid) true) ++
      (((lowBatteryAgents masC4).map Agent.agent_id).drop coordC4.available_stations).map
        (fun aid => Event.resourceRequest (chargeRequest aid) false) :=
  ⟨by decide, rfl, rfl,
    (contention_threshold_is_thirty masC4 "COORD_04" coordC4 (by decide) rfl rfl).2⟩

/-! ### C3: counterexample, amended theorem, witness -/

def coordC3 : Coordinator := (mkCoordinator "COORD_03").register_agent "P3"

/-- A picker with battery 10, eligible for charging. -/
def pickerC3 : Picker :=
  { mkPicker "P3" (2, 3) with
      core := { (mkPicker "P3" (2, 3)).core with battery_level := 10 } }

def masC3 : MultiAgentSystem :=
  { mkSystem with
      agents := [Agent.coordinator coordC3, Agent.picker pickerC3]
      coordinator_id := some "COORD_03" }

/-- Counterexample to C3: the claim says a granted agent's state transitions
to charging and then immediately to idle. In this concrete run the picker is
granted a station (battery reset to 100), but its final state is `charging`,
not `idle` — the code never transitions it back. -/
theorem granted_agent_not_idle :
    (simulate_resource_competition masC3).2 =
      [Event.resourceRequest (chargeRequest "P3") true] ∧
    lookupAgent (simulate_resource_competition masC3).1.agents "P3" =
      some (chargeAgent (Agent.picker pickerC3)) ∧
    (chargeAgent (Agent.picker pickerC3)).core.state = AgentState.charging ∧
    ¬(chargeAgent (Agent.picker pickerC3)).core.state = AgentState.idle ∧
    (chargeAgent (Agent.picker pickerC3)).core.battery_level = 100 :=
  ⟨rfl, rfl, rfl, by decide, rfl⟩

/-- C3 as amended: in the contention pass, every granted non-coordinator
agent has its state set to `charging` — where it stays; there is no
transition back to `idle` — and its battery reset to 100 (all other fields
unchanged, as `chargeAgent` only rewrites those two); every other
non-coordinator agent, including every denied one, is left exactly as it
was. Granted agents are those whose id falls in the first
`available_stations` entries of the low-battery list. -/
theorem charging_grant_sets_charging_state (mas : MultiAgentSystem) (cid : String)
    (co : Coordinator)
    (hnd : (mas.agents.map Agent.agent_id).Nodup)
    (hcid : mas.coordinator_id = some cid)
    (hco : lookupAgent mas.agents cid = some (Agent.coordinator co)) :
    ∀ a ∈ mas.agents, a.isCoordinator = false →
      (a.agent_id ∈ ((lowBatteryAgents mas).map Agent.agent_id).take co.available_stations →
        lookupAgent (simulate_resource_competition mas).1.agents a.agent_id =
          some (chargeAgent a) ∧
        (chargeAgent a).core.state = AgentState.charging ∧
        (chargeAgent a).core.state ≠ AgentState.idle ∧
        (chargeAgent a).core.battery_level = 100) ∧
      (a.agent_id ∉ ((lowBatteryAgents mas).map Agent.agent_id).take co.available_stations →
        lookupAgent (simulate_resource_competition mas).1.agents a.agent_id = some a) := by
  obtain ⟨hne, hidsnd, hpres⟩ := contention_hyps mas cid co hnd hco
  have spec := competition_loop_spec cid ((lowBatteryAgents mas).map Agent.agent_id)
    mas.agents co hco hnd hne hidsnd hpres
  intro a hamem hanc
  have haeq : lookupAgent mas.agents a.agent_id = some a :=
    lookupAgent_eq_of_mem _ _ hamem hnd
  have hane : a.agent_id ≠ cid := by
    intro he
    rw [he, hco] at haeq
    injection haeq with haeq
    rw [← haeq] at hanc
    simp [Agent.isCoordinator] at hanc
  have hcs : (chargeAgent a).core =
      { a.core with state := AgentState.charging, battery_level := 100 } :=
    Agent.core_withCore a _
  constructor
  · intro hin
    by_cases hlow : lowBatteryAgents mas = []
    · rw [hlow] at hin
      simp at hin
    · have hlow2 : (lowBatteryAgents mas).isEmpty = false := by
        simpa [List.isEmpty_iff] using hlow
      rw [simulate_eq mas cid hcid hlow2]
      dsimp only
      rw [spec.2.2.1 a.agent_id hin, haeq]
      exact ⟨rfl, by rw [hcs], by rw [hcs]; simp, by rw [hcs]⟩
  · intro hnin
    by_cases hlow : lowBatteryAgents mas = []
    · rw [simulate_empty mas cid hcid hlow]
      exact haeq
    · have hlow2 : (lowBatteryAgents mas).isEmpty = false := by
        simpa [List.isEmpty_iff] using hlow
      rw [simulate_eq mas cid hcid hlow2]
      dsimp only
      by_cases hmem : a.agent_id ∈ (lowBatteryAgents mas).map Agent.agent_id
      · have hdrop : a.agent_id ∈
            ((lowBatteryAgents mas).map Agent.agent_id).drop co.available_stations := by
          rw [← List.take_append_drop co.available_stations
            ((lowBatteryAgents mas).map Agent.agent_id)] at hmem
          rcases List.mem_append.mp hmem with h | h
          · exact absurd h hnin
          · exact h
        rw [spec.2.2.2 a.agent_id hdrop, haeq]
      · rw [spec.2.1 a.agent_id hmem hane, haeq]

/-- Witness for C3 (amended): in `masC3` the picker is granted and ends in
the charging state with battery 100, as the amended theorem predicts. -/
theorem charging_grant_sets_charging_state_witness :
    (masC3.agents.map Agent.agent_id).Nodup ∧
    masC3.coordinator_id = some "COORD_03" ∧
    lookupAgent masC3.agents "COORD_03" = some (Agent.coordinator coordC3) ∧
    Agent.picker pickerC3 ∈ masC3.agents ∧
    (Agent.picker pickerC3).isCoordinator = false ∧
    (Agent.picker pickerC3).agent_id ∈
      ((lowBatteryAgents masC3).map Agent.agent_id).take coordC3.available_stations ∧
    lookupAgent (simulate_resource_competition masC3).1.agents
        (Agent.picker pickerC3).agent_id = some (chargeAgent (Agent.picker pickerC3)) :=
  ⟨by decide, rfl, rfl, by decide, rfl, by decide,
    ((charging_grant_sets_charging_state masC3 "COORD_03" coordC3 (by decide) rfl rfl
        (Agent.picker pickerC3) (by decide) rfl).1 (by decide)).1⟩

/-! ### Fixtures, counterexample, amended theorem and witness for C5 -/

def coordC5 : Coordinator :=
  ((mkCoordinator "COORD_05").register_agent "P5").register_agent "T5"

def storeC5 : Store :=
  [Agent.coordinator coordC5, Agent.picker (mkPicker "P5" (2, 3)),
   Agent.transport (mkTransport "T5" (1, 1))]

def orderC5 : Content :=
  { order_id := some "ORD_X", items := some ["a", "b"], priority := some "normal" }

/-- Counterexample to C5: both roles have an idle member, the allocation path
that assigns the order runs, yet afterwards the order is still in the
coordinator's pending list — `allocate_tasks` never removes it (no code in
the module ever pops `pending_orders`). This contradicts the claim that the
order is in the pending list only until allocation and remains only when a
role has no idle member. -/
theorem order_stays_pending_after_allocation :
    availablePickers storeC5 coordC5.agent_registry ≠ [] ∧
    availableTransporters storeC5 coordC5.agent_registry ≠ [] ∧
    (handle_order_request coordC5 storeC5 (3, 3) (8, 8) orderC5).1.pending_orders =
      [orderC5] ∧
    orderC5 ∈ (handle_order_request coordC5 storeC5 (3, 3) (8, 8) orderC5).1.pending_orders := by
  refine ⟨by decide, by decide, rfl, by decide⟩

/-- C5 as amended: an order is appended to the coordinator's pending list on
receipt and remains there permanently — allocation never removes it, whether
or not both roles had an idle member. When either role has no idle member the
allocation additionally issues no requests and leaves every agent unchanged
(no retry is scheduled). -/
theorem pending_orders_never_removed (co : Coordinator) (store : Store)
    (pick_loc delivery_loc : Int × Int) (order : Content) :
    (handle_order_request co store pick_loc delivery_loc order).1.pending_orders =
      co.pending_orders ++ [order] ∧
    (availablePickers store co.agent_registry = [] ∨
        availableTransporters store co.agent_registry = [] →
      allocate_tasks co store pick_loc delivery_loc order = Except.ok (store, [])) := by
  refine ⟨rfl, ?_⟩
  intro h
  rcases h with h | h
  · simp [allocate_tasks, h]
  · cases hp : availablePickers store co.agent_registry with
    | nil => simp [allocate_tasks, hp]
    | cons p ps => simp [allocate_tasks, hp, h]

def orderW5 : Content := { order_id := some "ORD_W", items := some ["w"] }

/-- Witness for C5 (amended): with no registered agents at all, the order is
appended to the pending list and stays there, and allocation issues nothing. -/
theorem pending_orders_never_removed_witness :
    (handle_order_request (mkCoordinator "COORD_05W") [] (0, 0) (1, 1) orderW5).1.pending_orders =
      (mkCoordinator "COORD_05W").pending_orders ++ [orderW5] ∧
    availablePickers [] (mkCoordinator "COORD_05W").agent_registry = [] ∧
    allocate_tasks (mkCoordinator "COORD_05W") [] (0, 0) (1, 1) orderW5 =
      Except.ok ([], []) :=
  ⟨(pending_orders_never_removed (mkCoordinator "COORD_05W") [] (0, 0) (1, 1) orderW5).1,
   rfl,
   (pending_orders_never_removed (mkCoordinator "COORD_05W") [] (0, 0) (1, 1) orderW5).2
     (Or.inl rfl)⟩

/-! ### C10: agents added before any coordinator are never registered -/

/-- Constructor arguments of the agents the source builds before adding them
to the system (`PickerAgent(...)`, `TransportAgent(...)`,
`CoordinatorAgent(...)`). -/
inductive AgentSpec
  | pickerSpec (aid : String) (pos : Int × Int)
  | transportSpec (aid : String) (pos : Int × Int)
  | coordSpec (aid : String)
deriving DecidableEq, Repr

/-- Construct the agent a spec describes. -/
def mkAgent : AgentSpec → Agent
  | AgentSpec.pickerSpec aid pos => Agent.picker (mkPicker aid pos)
  | AgentSpec.transportSpec aid pos => Agent.transport (mkTransport aid pos)
  | AgentSpec.coordSpec aid => Agent.coordinator (mkCoordinator aid)

def AgentSpec.specId : AgentSpec → String
  | AgentSpec.pickerSpec aid _ => aid
  | AgentSpec.transportSpec aid _ => aid
  | AgentSpec.coordSpec aid => aid

def AgentSpec.isCoordSpec : AgentSpec → Bool
  | AgentSpec.coordSpec _ => true
  | _ => false

/-- Construct agents and add them to the system in order. -/
def buildSystem (specs : List AgentSpec) : MultiAgentSystem :=
  specs.foldl (fun mas s => add_agent mas (mkAgent s)) mkSystem

lemma mkAgent_id (s : AgentSpec) : (mkAgent s).agent_id = s.specId := by
  cases s <;> rfl

lemma mkAgent_isCoordinator (s : AgentSpec) :
    (mkAgent s).isCoordinator = s.isCoordSpec := by
  cases s <;> rfl

lemma mem_of_lookup {store : Store} {bid : String} {a : Agent}
    (h : lookupAgent store bid = some a) : a ∈ store :=
  List.mem_of_find?_eq_some h

lemma lookupAgent_eq_none (store : Store) (bid : String)
    (h : bid ∉ store.map Agent.agent_id) : lookupAgent store bid = none := by
  rw [lookupAgent, List.find?_eq_none]
  intro a ha
  simp only [decide_eq_true_eq]
  intro he
  exact h (he ▸ List.mem_map_of_mem Agent.agent_id ha)

lemma lookupAgent_append_left (store l2 : Store) (bid : String) (a : Agent)
    (h : lookupAgent store bid = some a) :
    lookupAgent (store ++ l2) bid = some a := by
  induction store with
  | nil => simp [lookupAgent] at h
  | cons c cs ih =>
    rw [List.cons_append, lookupAgent_cons]
    rw [lookupAgent_cons] at h
    by_cases hc : c.agent_id = bid
    · rw [if_pos hc] at h ⊢
      exact h
    · rw [if_neg hc] at h ⊢
      exact ih h

lemma lookupAgent_append_right (store l2 : Store) (bid : String)
    (h : bid ∉ store.map Agent.agent_id) :
    lookupAgent (store ++ l2) bid = lookupAgent l2 bid := by
  induction store with
  | nil => rfl
  | cons c cs ih =>
    rw [List.map_cons] at h
    have hc : c.agent_id ≠ bid := fun he => h (he ▸ List.mem_cons_self _ _)
    rw [List.cons_append, lookupAgent_cons, if_neg hc]
    exact ih (fun hm => h (List.mem_cons_of_mem _ hm))

lemma dictInsert_fresh (store : Store) (a : Agent)
    (h : a.agent_id ∉ store.map Agent.agent_id) :
    dictInsert store a = store ++ [a] := by
  rw [dictInsert, if_neg]
  intro hc
  obtain ⟨b, hb, heq⟩ := List.any_eq_true.mp hc
  exact h (of_decide_eq_true heq ▸ List.mem_map_of_mem Agent.agent_id hb)

/-- No coordinator reachable in the store has `xid` in its registry. -/
def RegistrySafe (xid : String) (store : Store) : Prop :=
  ∀ c : Coordinator, Agent.coordinator c ∈ store → xid ∉ c.agent_registry

lemma RegistrySafe.append {xid : String} {s1 s2 : Store}
    (h1 : RegistrySafe xid s1) (h2 : RegistrySafe xid s2) :
    RegistrySafe xid (s1 ++ s2) := by
  intro c hc
  rcases List.mem_append.mp hc with h | h
  · exact h1 c h
  · exact h2 c h

lemma registrySafe_single_nonCoord {xid : String} {a : Agent}
    (h : a.isCoordinator = false) : RegistrySafe xid [a] := by
  intro c hc
  rw [List.mem_singleton] at hc
  rw [← hc] at h
  simp [Agent.isCoordinator] at h

lemma registrySafe_setAgent {xid : String} {store : Store} {aid : String} {y : Agent}
    (h : RegistrySafe xid store)
    (hy : ∀ c : Coordinator, y = Agent.coordinator c → xid ∉ c.agent_registry) :
    RegistrySafe xid (setAgent store aid y) := by
  intro c hc
  obtain ⟨e, he, heq⟩ := List.mem_map.mp hc
  by_cases hid : e.agent_id = aid
  · rw [if_pos hid] at heq
    exact hy c heq
  · rw [if_neg hid] at heq
    exact h c (heq ▸ he)

lemma register_agent_not_mem {xid : String} (co : Coordinator) (aid : String)
    (h : xid ∉ co.agent_registry) (hne : aid ≠ xid) :
    xid ∉ (co.register_agent aid).agent_registry := by
  rw [Coordinator.register_agent]
  split
  · exact h
  · intro hmem
    rcases List.mem_append.mp hmem with hm | hm
    · exact h hm
    · exact hne (List.mem_singleton.mp hm).symm

lemma add_agent_coord (mas : MultiAgentSystem) (c : Coordinator) :
    add_agent mas (Agent.coordinator c) =
      { mas with agents := dictInsert mas.agents (Agent.coordinator c)
                 coordinator_id := some (Agent.coordinator c).agent_id } := by
  rfl

lemma add_agent_non_coord (mas : MultiAgentSystem) (a : Agent)
    (hanc : a.isCoordinator = false) :
    add_agent mas a =
      match mas.coordinator_id with
      | some cid =>
        match lookupAgent (dictInsert mas.agents a) cid with
        | some (Agent.coordinator co) =>
          { mas with agents := setAgent (dictInsert mas.agents a) cid (Agent.coordinator (co.register_agent a.agent_id)) }
        | _ => { mas with agents := dictInsert mas.agents a }
      | none => { mas with agents := dictInsert mas.agents a } := by
  cases a with
  | picker p => rfl
  | transport t => rfl
  | coordinator c => simp [Agent.isCoordinator] at hanc

/-- Adding one freshly named non-coordinator preserves the phase-2
invariants: the pre-coordinator agent `xa` stays looked up under `xid`, no
registry acquires `xid` (a registration registers only the new agent's own
id, which is not `xid`), ids extend by one, and the coordinator pointer is
unchanged. -/
lemma add_agent_step (xid : String) (xa : Agent) (hxnc : xa.isCoordinator = false)
    (mas : MultiAgentSystem) (a : Agent) (hanc : a.isCoordinator = false)
    (hx : lookupAgent mas.agents xid = some xa)
    (hsafe : RegistrySafe xid mas.agents)
    (_hnd : (mas.agents.map Agent.agent_id).Nodup)
    (hfresh : a.agent_id ∉ mas.agents.map Agent.agent_id) :
    lookupAgent (add_agent mas a).agents xid = some xa ∧
    RegistrySafe xid (add_agent mas a).agents ∧
    (add_agent mas a).agents.map Agent.agent_id =
      mas.agents.map Agent.agent_id ++ [a.agent_id] ∧
    (add_agent mas a).coordinator_id = mas.coordinator_id := by
  have hxid_mem : xid ∈ mas.agents.map Agent.agent_id := by
    have hm := List.mem_map_of_mem Agent.agent_id (mem_of_lookup hx)
    rwa [agent_id_of_lookup hx] at hm
  have haxid : a.agent_id ≠ xid := fun he => hfresh (he ▸ hxid_mem)
  have hins : dictInsert mas.agents a = mas.agents ++ [a] :=
    dictInsert_fresh _ _ hfresh
  have hx' : lookupAgent (mas.agents ++ [a]) xid = some xa :=
    lookupAgent_append_left _ _ _ _ hx
  have hsafe' : RegistrySafe xid (mas.agents ++ [a]) :=
    hsafe.append (registrySafe_single_nonCoord hanc)
  rw [add_agent_non_coord mas a hanc]
  cases hcid : mas.coordinator_id with
  | none =>
    dsimp only
    rw [hins]
    exact ⟨hx', hsafe', by simp, rfl⟩
  | some cid =>
    dsimp only
    rw [hins]
    cases hlk : lookupAgent (mas.agents ++ [a]) cid with
    | none =>
      dsimp only
      exact ⟨hx', hsafe', by simp, rfl⟩
    | some b =>
      cases b with
      | picker p =>
        dsimp only
        exact ⟨hx', hsafe', by simp, rfl⟩
      | transport t =>
        dsimp only
        exact ⟨hx', hsafe', by simp, rfl⟩
      | coordinator co =>
        dsimp only
        have hco_mem : Agent.coordinator co ∈ mas.agents := by
          rcases List.mem_append.mp (mem_of_lookup hlk) with h | h
          · exact h
          · rw [List.mem_singleton] at h
            rw [← h] at hanc
            simp [Agent.isCoordinator] at hanc
        have hcid_id : (Agent.coordinator (co.register_agent a.agent_id)).agent_id = cid := by
          have h1 := agent_id_of_lookup hlk
          rw [Coordinator.register_agent]
          split <;> exact h1
        have hxid_ne_cid : xid ≠ cid := by
          intro he
          rw [he, hlk] at hx'
          injection hx' with hx'
          rw [← hx'] at hxnc
          simp [Agent.isCoordinator] at hxnc
        refine ⟨?_, ?_, ?_, rfl⟩
        · rw [lookupAgent_setAgent _ _ _ _ hcid_id, if_neg hxid_ne_cid]
          exact hx'
        · refine registrySafe_setAgent hsafe' ?_
          intro c hc
          injection hc with hc
          rw [← hc]
          exact register_agent_not_mem co a.agent_id (hsafe co hco_mem) haxid
        · rw [map_agent_id_setAgent _ _ _ hcid_id]
          simp

/-- Adding a freshly constructed coordinator likewise preserves the phase-2
invariants (its registry starts empty). -/
lemma add_coord_step (xid : String) (xa : Agent)
    (mas : MultiAgentSystem) (aid : String)
    (hx : lookupAgent mas.agents xid = some xa)
    (hsafe : RegistrySafe xid mas.agents)
    (hfresh : aid ∉ mas.agents.map Agent.agent_id) :
    lookupAgent (add_agent mas (Agent.coordinator (mkCoordinator aid))).agents xid =
      some xa ∧
    RegistrySafe xid (add_agent mas (Agent.coordinator (mkCoordinator aid))).agents ∧
    (add_agent mas (Agent.coordinator (mkCoordinator aid))).agents.map Agent.agent_id =
      mas.agents.map Agent.agent_id ++ [aid] := by
  have hins : dictInsert mas.agents (Agent.coordinator (mkCoordinator aid)) =
      mas.agents ++ [Agent.coordinator (mkCoordinator aid)] :=
    dictInsert_fresh _ _ hfresh
  rw [add_agent_coord]
  dsimp only
  rw [hins]
  refine ⟨lookupAgent_append_left _ _ _ _ hx, hsafe.append ?_,
    by simp [Agent.agent_id, Agent.core, mkCoordinator, mkCore]⟩
  intro c hc
  rw [List.mem_singleton] at hc
  injection hc with hc
  rw [hc]
  exact List.not_mem_nil xid

/-- Phase 2: folding any further additions over a system already containing
the unregistered agent `xa` keeps it unregistered everywhere. -/
lemma build_post (xid : String) (xa : Agent) (hxnc : xa.isCoordinator = false) :
    ∀ (post : List AgentSpec) (mas : MultiAgentSystem),
    lookupAgent mas.agents xid = some xa →
    RegistrySafe xid mas.agents →
    (mas.agents.map Agent.agent_id).Nodup →
    (∀ s ∈ post, s.specId ∉ mas.agents.map Agent.agent_id) →
    (post.map AgentSpec.specId).Nodup →
    lookupAgent (post.foldl (fun m s => add_agent m (mkAgent s)) mas).agents xid =
      some xa ∧
    RegistrySafe xid (post.foldl (fun m s => add_agent m (mkAgent s)) mas).agents := by
  intro post
  induction post with
  | nil =>
    intro mas hx hsafe _ _ _
    exact ⟨hx, hsafe⟩
  | cons s rest ih =>
    intro mas hx hsafe hnd hfresh hpnd
    have hfresh_s : s.specId ∉ mas.agents.map Agent.agent_id :=
      hfresh s (List.mem_cons_self _ _)
    have hpnd' : (rest.map AgentSpec.specId).Nodup :=
      (List.nodup_cons.mp (by simpa using hpnd)).2
    have hs_rest : s.specId ∉ rest.map AgentSpec.specId :=
      (List.nodup_cons.mp (by simpa using hpnd)).1
    rw [List.foldl_cons]
    cases s with
    | coordSpec aid =>
      obtain ⟨h1, h2, h3⟩ := add_coord_step xid xa mas aid hx hsafe hfresh_s
      refine ih (add_agent mas (Agent.coordinator (mkCoordinator aid))) h1 h2 ?_ ?_ hpnd'
      · rw [h3]
        rw [List.nodup_append]
        exact ⟨hnd, List.nodup_singleton _, by
          intro b hb hb2
          rw [List.mem_singleton] at hb2
          exact hfresh_s (hb2 ▸ hb)⟩
      · intro s' hs'
        rw [h3]
        intro hmem
        rcases List.mem_append.mp hmem with h | h
        · exact hfresh s' (List.mem_cons_of_mem _ hs') h
        · rw [List.mem_singleton] at h
          have hmem2 := List.mem_map_of_mem AgentSpec.specId hs'
          rw [h] at hmem2
          exact hs_rest hmem2
    | pickerSpec aid pos =>
      have hanc : (mkAgent (AgentSpec.pickerSpec aid pos)).isCoordinator = false := rfl
      have hfr : (mkAgent (AgentSpec.pickerSpec aid pos)).agent_id ∉
          mas.agents.map Agent.agent_id := by
        rw [mkAgent_id]
        exact hfresh_s
      obtain ⟨h1, h2, h3, _⟩ :=
        add_agent_step xid xa hxnc mas (mkAgent (AgentSpec.pickerSpec aid pos)) hanc
          hx hsafe hnd hfr
      refine ih _ h1 h2 ?_ ?_ hpnd'
      · rw [h3, List.nodup_append]
        exact ⟨hnd, List.nodup_singleton _, by
          intro b hb hb2
          rw [List.mem_singleton] at hb2
          rw [mkAgent_id] at hb2
          exact hfresh_s (hb2 ▸ hb)⟩
      · intro s' hs'
        rw [h3]
        intro hmem
        rcases List.mem_append.mp hmem with h | h
        · exact hfresh s' (List.mem_cons_of_mem _ hs') h
        · rw [List.mem_singleton, mkAgent_id] at h
          have hmem2 := List.mem_map_of_mem AgentSpec.specId hs'
          rw [h] at hmem2
          exact hs_rest hmem2
    | transportSpec aid pos =>
      have hanc : (mkAgent (AgentSpec.transportSpec aid pos)).isCoordinator = false := rfl
      have hfr : (mkAgent (AgentSpec.transportSpec aid pos)).agent_id ∉
          mas.agents.map Agent.agent_id := by
        rw [mkAgent_id]
        exact hfresh_s
      obtain ⟨h1, h2, h3, _⟩ :=
        add_agent_step xid xa hxnc mas (mkAgent (AgentSpec.transportSpec aid pos)) hanc
          hx hsafe hnd hfr
      refine ih _ h1 h2 ?_ ?_ hpnd'
      · rw [h3, List.nodup_append]
        exact ⟨hnd, List.nodup_singleton _, by
          intro b hb hb2
          rw [List.mem_singleton] at hb2
          rw [mkAgent_id] at hb2
          exact hfresh_s (hb2 ▸ hb)⟩
      · intro s' hs'
        rw [h3]
        intro hmem
        rcases List.mem_append.mp hmem with h | h
        · exact hfresh s' (List.mem_cons_of_mem _ hs') h
        · rw [List.mem_singleton, mkAgent_id] at h
          have hmem2 := List.mem_map_of_mem AgentSpec.specId hs'
          rw [h] at hmem2
          exact hs_rest hmem2

lemma map_agent_id_mkAgents (specs : List AgentSpec) :
    (specs.map mkAgent).map Agent.agent_id = specs.map AgentSpec.specId := by
  rw [List.map_map]
  simp [Function.comp, mkAgent_id]

lemma registrySafe_mkAgents (xid : String) (specs : List AgentSpec)
    (h : ∀ s ∈ specs, s.isCoordSpec = false) :
    RegistrySafe xid (specs.map mkAgent) := by
  intro c hc
  obtain ⟨s, hs, heq⟩ := List.mem_map.mp hc
  cases s with
  | pickerSpec aid pos => simp [mkAgent] at heq
  | transportSpec aid pos => simp [mkAgent] at heq
  | coordSpec aid =>
    have hfalse := h _ hs
    simp [AgentSpec.isCoordSpec] at hfalse

/-- Phase 1: adding only non-coordinators performs no registration at all —
each addition is a plain dict insert and the coordinator pointer stays
unset. -/
lemma build_no_coord (specs : List AgentSpec) :
    ∀ (mas : MultiAgentSystem),
    (∀ s ∈ specs, s.isCoordSpec = false) →
    mas.coordinator_id = none →
    (∀ s ∈ specs, s.specId ∉ mas.agents.map Agent.agent_id) →
    (specs.map AgentSpec.specId).Nodup →
    (specs.foldl (fun m s => add_agent m (mkAgent s)) mas).agents =
      mas.agents ++ specs.map mkAgent ∧
    (specs.foldl (fun m s => add_agent m (mkAgent s)) mas).coordinator_id = none := by
  induction specs with
  | nil =>
    intro mas _ hcid _ _
    exact ⟨by simp, hcid⟩
  | cons s rest ih =>
    intro mas hnc hcid hfresh hnd
    have hs_nc : s.isCoordSpec = false := hnc s (List.mem_cons_self _ _)
    have hanc : (mkAgent s).isCoordinator = false := by
      rw [mkAgent_isCoordinator, hs_nc]
    have hfr : (mkAgent s).agent_id ∉ mas.agents.map Agent.agent_id := by
      rw [mkAgent_id]
      exact hfresh s (List.mem_cons_self _ _)
    have hnd' : (rest.map AgentSpec.specId).Nodup :=
      (List.nodup_cons.mp (by simpa using hnd)).2
    have hs_rest : s.specId ∉ rest.map AgentSpec.specId :=
      (List.nodup_cons.mp (by simpa using hnd)).1
    have hstep : add_agent mas (mkAgent s) =
        { mas with agents := mas.agents ++ [mkAgent s] } := by
      rw [add_agent_non_coord mas (mkAgent s) hanc, hcid]
      dsimp only
      rw [dictInsert_fresh _ _ hfr]
    rw [List.foldl_cons, hstep]
    have IH := ih { mas with agents := mas.agents ++ [mkAgent s] }
      (fun s' hs' => hnc s' (List.mem_cons_of_mem _ hs')) hcid
      (by
        intro s' hs'
        dsimp only
        rw [List.map_append]
        intro hmem
        rcases List.mem_append.mp hmem with h | h
        · exact hfresh s' (List.mem_cons_of_mem _ hs') h
        · rw [List.map_singleton, List.mem_singleton, mkAgent_id] at h
          have hmem2 := List.mem_map_of_mem AgentSpec.specId hs'
          rw [h] at hmem2
          exact hs_rest hmem2)
      hnd'
    refine ⟨?_, IH.2⟩
    rw [IH.1]
    dsimp only
    rw [List.append_assoc]
    simp

lemma availablePickers_mem_registry {store : Store} {registry : List String}
    {p : Picker} (h : p ∈ availablePickers store registry) :
    p.core.agent_id ∈ registry := by
  simp only [availablePickers] at h
  obtain ⟨aid, haid, heq⟩ := List.mem_filterMap.mp h
  cases hlk : lookupAgent store aid with
  | none =>
    rw [hlk] at heq
    simp at heq
  | some b =>
    cases b with
    | picker q =>
      rw [hlk] at heq
      dsimp only at heq
      by_cases hq : q.core.state = AgentState.idle
      · rw [if_pos hq] at heq
        injection heq with heq
        rw [← heq]
        have hid : q.core.agent_id = aid := agent_id_of_lookup hlk
        rw [hid]
        exact haid
      · rw [if_neg hq] at heq
        simp at heq
    | transport t =>
      rw [hlk] at heq
      simp at heq
    | coordinator c =>
      rw [hlk] at heq
      simp at heq

lemma availableTransporters_mem_registry {store : Store} {registry : List String}
    {t : Transport} (h : t ∈ availableTransporters store registry) :
    t.core.agent_id ∈ registry := by
  simp only [availableTransporters] at h
  obtain ⟨aid, haid, heq⟩ := List.mem_filterMap.mp h
  cases hlk : lookupAgent store aid with
  | none =>
    rw [hlk] at heq
    simp at heq
  | some b =>
    cases b with
    | picker q =>
      rw [hlk] at heq
      simp at heq
    | transport u =>
      rw [hlk] at heq
      dsimp only at heq
      by_cases hq : u.core.state = AgentState.idle
      · rw [if_pos hq] at heq
        injection heq with heq
        rw [← heq]
        have hid : u.core.agent_id = aid := agent_id_of_lookup hlk
        rw [hid]
        exact haid
      · rw [if_neg hq] at heq
        simp at heq
    | coordinator c =>
      rw [hlk] at heq
      simp at heq

/-- C10: an agent constructed and added to the system before any coordinator
exists is never entered into any coordinator's agent registry — registration
happens only inside `add_agent`, and only when a coordinator is already set —
so neither `allocate_tasks` list comprehension can ever select it, even
though the agent sits in the system store and therefore still receives
broadcasts and direct messages. -/
theorem pre_coordinator_agent_never_registered
    (pre post : List AgentSpec) (x : AgentSpec) (cid : String) (co : Coordinator)
    (hpre : ∀ s ∈ pre, s.isCoordSpec = false)
    (hx : x.isCoordSpec = false)
    (hnd : ((pre ++ x :: post).map AgentSpec.specId).Nodup)
    (hco : lookupAgent (buildSystem (pre ++ x :: post)).agents cid =
      some (Agent.coordinator co)) :
    x.specId ∉ co.agent_registry ∧
    lookupAgent (buildSystem (pre ++ x :: post)).agents x.specId = some (mkAgent x) ∧
    (∀ p ∈ availablePickers (buildSystem (pre ++ x :: post)).agents co.agent_registry,
      p.core.agent_id ≠ x.specId) ∧
    (∀ t ∈ availableTransporters (buildSystem (pre ++ x :: post)).agents co.agent_registry,
      t.core.agent_id ≠ x.specId) := by
  rw [List.map_append, List.map_cons, List.nodup_append] at hnd
  obtain ⟨hnd_pre, hnd_xpost, hdisj⟩ := hnd
  have hx_post : x.specId ∉ post.map AgentSpec.specId :=
    (List.nodup_cons.mp hnd_xpost).1
  have hnd_post : (post.map AgentSpec.specId).Nodup :=
    (List.nodup_cons.mp hnd_xpost).2
  have hx_pre : x.specId ∉ pre.map AgentSpec.specId := fun hmem =>
    hdisj hmem (List.mem_cons_self _ _)
  have hbuild : buildSystem (pre ++ x :: post) =
      post.foldl (fun m s => add_agent m (mkAgent s))
        (add_agent (pre.foldl (fun m s => add_agent m (mkAgent s)) mkSystem) (mkAgent x)) := by
    rw [buildSystem, List.foldl_append, List.foldl_cons]
  obtain ⟨hag1, hcid1⟩ := build_no_coord pre mkSystem hpre rfl
    (by intro s _; simp [mkSystem]) hnd_pre
  have hids1 : (pre.foldl (fun m s => add_agent m (mkAgent s)) mkSystem).agents.map
      Agent.agent_id = pre.map AgentSpec.specId := by
    rw [hag1]
    rw [show mkSystem.agents = [] from rfl, List.nil_append]
    exact map_agent_id_mkAgents pre
  have hxa_nc : (mkAgent x).isCoordinator = false := by
    rw [mkAgent_isCoordinator, hx]
  have hx_fresh : (mkAgent x).agent_id ∉
      (pre.foldl (fun m s => add_agent m (mkAgent s)) mkSystem).agents.map Agent.agent_id := by
    rw [mkAgent_id, hids1]
    exact hx_pre
  have hag2 : (add_agent (pre.foldl (fun m s => add_agent m (mkAgent s)) mkSystem)
      (mkAgent x)).agents =
      (pre.foldl (fun m s => add_agent m (mkAgent s)) mkSystem).agents ++ [mkAgent x] := by
    rw [add_agent_non_coord _ (mkAgent x) hxa_nc, hcid1]
    dsimp only
    rw [dictInsert_fresh _ _ hx_fresh]
  have hx2 : lookupAgent (add_agent (pre.foldl (fun m s => add_agent m (mkAgent s)) mkSystem)
      (mkAgent x)).agents x.specId = some (mkAgent x) := by
    rw [hag2]
    rw [lookupAgent_append_right _ _ _ (by rw [hids1]; exact hx_pre)]
    rw [lookupAgent_cons, if_pos (mkAgent_id x)]
  have hsafe2 : RegistrySafe x.specId
      (add_agent (pre.foldl (fun m s => add_agent m (mkAgent s)) mkSystem)
        (mkAgent x)).agents := by
    rw [hag2, hag1]
    refine RegistrySafe.append (RegistrySafe.append ?_ ?_)
      (registrySafe_single_nonCoord hxa_nc)
    · intro c hc
      simp [mkSystem] at hc
    · exact registrySafe_mkAgents _ pre hpre
  have hnd2 : ((add_agent (pre.foldl (fun m s => add_agent m (mkAgent s)) mkSystem)
      (mkAgent x)).agents.map Agent.agent_id).Nodup := by
    rw [hag2]
    rw [List.map_append, hids1, List.nodup_append]
    refine ⟨hnd_pre, by simp, ?_⟩
    intro b hb hb2
    rw [List.map_singleton, List.mem_singleton, mkAgent_id] at hb2
    exact hx_pre (hb2 ▸ hb)
  have hfresh2 : ∀ s ∈ post, s.specId ∉
      ((add_agent (pre.foldl (fun m s => add_agent m (mkAgent s)) mkSystem)
        (mkAgent x)).agents.map Agent.agent_id) := by
    intro s hs
    rw [hag2]
    rw [List.map_append, hids1]
    intro hmem
    rcases List.mem_append.mp hmem with h | h
    · exact hdisj h (List.mem_cons_of_mem _
        (List.mem_map_of_mem AgentSpec.specId hs))
    · rw [List.map_singleton, List.mem_singleton, mkAgent_id] at h
      have hmem2 := List.mem_map_of_mem AgentSpec.specId hs
      rw [h] at hmem2
      exact hx_post hmem2
  obtain ⟨hlook, hsafeF⟩ := build_post x.specId (mkAgent x) hxa_nc post _
    hx2 hsafe2 hnd2 hfresh2 hnd_post
  rw [hbuild] at hco ⊢
  have hreg : x.specId ∉ co.agent_registry := hsafeF co (mem_of_lookup hco)
  refine ⟨hreg, hlook, ?_, ?_⟩
  · intro p hp he
    rw [← he] at hreg
    exact hreg (availablePickers_mem_registry hp)
  · intro t ht he
    rw [← he] at hreg
    exact hreg (availableTransporters_mem_registry ht)

/-- Witness for C10: picker "PX" added before the coordinator; afterwards the
coordinator "C10" has only the later "P10" in its registry, while "PX" is
still in the system store. -/
theorem pre_coordinator_agent_never_registered_witness :
    (∀ s ∈ ([] : List AgentSpec), s.isCoordSpec = false) ∧
    (AgentSpec.pickerSpec "PX" (2, 3)).isCoordSpec = false ∧
    ((([] : List AgentSpec) ++ AgentSpec.pickerSpec "PX" (2, 3) ::
      [AgentSpec.coordSpec "C10", AgentSpec.pickerSpec "P10" (1, 1)]).map
        AgentSpec.specId).Nodup ∧
    lookupAgent (buildSystem (([] : List AgentSpec) ++ AgentSpec.pickerSpec "PX" (2, 3) ::
        [AgentSpec.coordSpec "C10", AgentSpec.pickerSpec "P10" (1, 1)])).agents "C10" =
      some (Agent.coordinator ((mkCoordinator "C10").register_agent "P10")) ∧
    "PX" ∉ ((mkCoordinator "C10").register_agent "P10").agent_registry ∧
    lookupAgent (buildSystem (([] : List AgentSpec) ++ AgentSpec.pickerSpec "PX" (2, 3) ::
        [AgentSpec.coordSpec "C10", AgentSpec.pickerSpec "P10" (1, 1)])).agents "PX" =
      some (mkAgent (AgentSpec.pickerSpec "PX" (2, 3))) := by
  have h := pre_coordinator_agent_never_registered []
    [AgentSpec.coordSpec "C10", AgentSpec.pickerSpec "P10" (1, 1)]
    (AgentSpec.pickerSpec "PX" (2, 3)) "C10"
    ((mkCoordinator "C10").register_agent "P10")
    (by intro s hs; cases hs) rfl (by decide) rfl
  exact ⟨fun s hs => absurd hs (List.not_mem_nil s), rfl, by decide, rfl, h.1, h.2.1⟩

end MAS
